import Mathlib

/-!
Verification development for the cobblestone scrobbler core.

This file gives a shallow embedding, in Lean 4, of the parts of the program
relevant to the frozen claims:

* `src/rockbox.rs` — the Rockbox tag-cache reader (binary database decoding)
  and the playback-log parser;
* `src/scrobble.rs` — the eligibility filter and track assembler;
* `src/service.rs` — request signing and scrobble-response interpretation.

Modelling conventions:

* Rust `u8` bytes are `Nat` with an explicit `% 256` mask where the width
  matters; 32-bit reads are `Nat` (unsigned) or `Int` (signed, explicit
  `- 2^32` wraparound); Rust `i64`/`i32` arithmetic is `Int` (`Int.tdiv` is
  Rust's truncating `/`).
* A file on disk is a `List Nat` of its bytes.  Positioned reads
  (`seek` + `read`) become list indexing; `read` returns the bytes available
  (up to the requested count) and `read_exact` fails when fewer are
  available, exactly as for an in-memory file.
* Fallible Rust functions returning `anyhow::Result<T>` become
  `Except String T`; the error strings follow the source's messages (the
  claims never depend on their exact text).
* The reader's file-handle cache (`with_tag_file`) memoizes open handles to
  a fixed, unchanging filesystem (spec §5: no concurrent modification), so
  it is observationally pure; the model therefore reads the filesystem map
  `tagFiles` directly.  Likewise the lazy `path_index` memoization caches a
  value that is a pure function of the files, so `load_path_index` is
  modelled as "return the cache if present, else the pure build"; the claims
  quantify over both cached and uncached states.
* Rust `String` is Lean `String`; `str` library operations that the source
  uses (`trim`, `lines`, `splitn`, `parse`) are modelled explicitly over
  `List Char` so that everything evaluates inside the kernel.
  `String::from_utf8_lossy` is modelled by an explicit UTF-8 decoder with
  U+FFFD replacement.
-/

set_option maxRecDepth 10000

deriving instance DecidableEq for Except

/-! ### Bytes, endianness and positioned reads (src/rockbox.rs) -/

inductive Endian where
  | little
  | big
deriving DecidableEq

/-- `byteorder::{Little,Big}Endian::read_u32` on a 4-byte slice.  Each byte is
masked to its 8-bit width. -/
def read_u32 (e : Endian) (bytes : List Nat) : Nat :=
  match e with
  | .little =>
      bytes.getD 0 0 % 256 + bytes.getD 1 0 % 256 * 256
        + bytes.getD 2 0 % 256 * 65536 + bytes.getD 3 0 % 256 * 16777216
  | .big =>
      bytes.getD 3 0 % 256 + bytes.getD 2 0 % 256 * 256
        + bytes.getD 1 0 % 256 * 65536 + bytes.getD 0 0 % 256 * 16777216

/-- `byteorder::{Little,Big}Endian::read_i32`: the same 32-bit word read as a
signed value (two's complement wraparound made explicit). -/
def read_i32 (e : Endian) (bytes : List Nat) : Int :=
  let v := read_u32 e bytes
  if v < 2 ^ 31 then (v : Int) else (v : Int) - 2 ^ 32

/-- `File::read` after seeking to `pos`: returns the available bytes, at most
`n` of them. -/
def readUpTo (file : List Nat) (pos n : Nat) : List Nat :=
  (file.drop pos).take n

/-- `File::read_exact` after seeking to `pos`: fails unless `n` bytes are
available. -/
def readExact (file : List Nat) (pos n : Nat) : Option (List Nat) :=
  if pos + n ≤ file.length then some (readUpTo file pos n) else none

/-! ### Lossy UTF-8 decoding (`String::from_utf8_lossy`) -/

/-- U+FFFD, the replacement character substituted for invalid sequences. -/
def replacementChar : Char := Char.ofNat 0xFFFD

/-- One step of lossy UTF-8 decoding: given the (masked) lead byte and the
bytes after it, produce the decoded character (U+FFFD on an invalid or
truncated sequence) and how many continuation bytes were consumed.
Lead-byte ranges and continuation bounds (including the E0/ED and F0/F4
special cases excluding overlong encodings and surrogates) follow the UTF-8
validation Rust performs; an invalid sequence consumes its maximal valid
prefix, as in `String::from_utf8_lossy`. -/
def utf8Step (b : Nat) (rest : List Nat) : Char × Nat :=
  if b < 0x80 then (Char.ofNat b, 0)
  else if b < 0xC2 then (replacementChar, 0)
  else if b < 0xE0 then
    match rest with
    | [] => (replacementChar, 0)
    | c1 :: _ =>
      let c1v := c1 % 256
      if 0x80 ≤ c1v ∧ c1v < 0xC0 then
        (Char.ofNat ((b - 0xC0) * 64 + (c1v - 0x80)), 1)
      else (replacementChar, 0)
  else if b < 0xF0 then
    match rest with
    | [] => (replacementChar, 0)
    | c1 :: rest1 =>
      let c1v := c1 % 256
      let lo := if b = 0xE0 then 0xA0 else 0x80
      let hi := if b = 0xED then 0xA0 else 0xC0
      if lo ≤ c1v ∧ c1v < hi then
        match rest1 with
        | [] => (replacementChar, 1)
        | c2 :: _ =>
          let c2v := c2 % 256
          if 0x80 ≤ c2v ∧ c2v < 0xC0 then
            (Char.ofNat ((b - 0xE0) * 4096 + (c1v - 0x80) * 64 + (c2v - 0x80)), 2)
          else (replacementChar, 1)
      else (replacementChar, 0)
  else if b < 0xF5 then
    match rest with
    | [] => (replacementChar, 0)
    | c1 :: rest1 =>
      let c1v := c1 % 256
      let lo := if b = 0xF0 then 0x90 else 0x80
      let hi := if b = 0xF4 then 0x90 else 0xC0
      if lo ≤ c1v ∧ c1v < hi then
        match rest1 with
        | [] => (replacementChar, 1)
        | c2 :: rest2 =>
          let c2v := c2 % 256
          if 0x80 ≤ c2v ∧ c2v < 0xC0 then
            match rest2 with
            | [] => (replacementChar, 2)
            | c3 :: _ =>
              let c3v := c3 % 256
              if 0x80 ≤ c3v ∧ c3v < 0xC0 then
                (Char.ofNat ((b - 0xF0) * 262144 + (c1v - 0x80) * 4096
                    + (c2v - 0x80) * 64 + (c3v - 0x80)), 3)
              else (replacementChar, 2)
          else (replacementChar, 1)
      else (replacementChar, 0)
  else (replacementChar, 0)

/-- The decoding loop, structurally recursive on a fuel argument so that it
reduces inside the kernel.  Every step consumes at least one input byte, so
fuel equal to the input length (as supplied by `decodeUtf8Lossy`) never runs
out. -/
def decodeUtf8LossyAux : Nat → List Nat → List Char
  | 0, _ => []
  | _, [] => []
  | fuel + 1, b0 :: rest =>
    let step := utf8Step (b0 % 256) rest
    step.1 :: decodeUtf8LossyAux fuel (rest.drop step.2)

/-- `String::from_utf8_lossy`: UTF-8 decoding where each maximal invalid
subsequence becomes U+FFFD; never fails. -/
def decodeUtf8Lossy (l : List Nat) : List Char :=
  decodeUtf8LossyAux l.length l

/-- `data.split(|byte| *byte == 0).next()`: everything before the first null
byte. -/
def takeUntilNull (data : List Nat) : List Nat :=
  data.takeWhile (fun b => b % 256 ≠ 0)

/-- The decoded string value of a side-file payload:
`String::from_utf8_lossy(value).to_string()` of the bytes before the first
null. -/
def decodeTagValue (data : List Nat) : String :=
  String.mk (decodeUtf8Lossy (takeUntilNull data))

/-! ### The tag-cache reader (src/rockbox.rs, `TagCache`) -/

/-- `TAGCACHE_MAGIC`. -/
def TAGCACHE_MAGIC : Nat := 0x54434810

/-- `TAGCACHE_HEADER_SIZE`: the 12-byte tag-file header (magic, data size,
entry count). -/
def TAGCACHE_HEADER_SIZE : Nat := 12

/-- `TAGFILE_ENTRY_HEADER_SIZE`: the 8-byte sub-entry header (string length,
reverse-index id). -/
def TAGFILE_ENTRY_HEADER_SIZE : Nat := 8

/-- `TAG_COUNT`: number of tag kinds. -/
def TAG_COUNT : Nat := 23

/-- `TAG_FILENAME`: the tag kind whose side file is the reverse index. -/
def TAG_FILENAME : Int := 4

/-- Master row size: `(TAG_COUNT + 1) * 4` bytes (`entry_size` in
`TagCache::new`). -/
def ENTRY_SIZE : Nat := (TAG_COUNT + 1) * 4

/-- `master_header_size` in `TagCache::new`: the 24-byte master header. -/
def MASTER_HEADER_SIZE : Nat := 24

/-- The reader state.  `master` is the content of `database_idx.tcd`;
`tagFiles t` is the content of `database_<t>.tcd`, or `none` when that file
does not exist (so opening it fails); `path_index` is the memoized reverse
index (an association list where the head shadows later duplicates, matching
`HashMap` insertion where a later `insert` wins). -/
structure TagCache where
  endian : Endian
  master : List Nat
  tagFiles : Int → Option (List Nat)
  path_index : Option (List (String × Int))

/-- `TrackInfo`. -/
structure TrackInfo where
  artist : String
  title : String
  album : Option String
  duration_seconds : Int
deriving DecidableEq

/-- `TagCache::read_header`: read the 12-byte tag-file header at `pos`,
returning (magic, data size, entry count); `none` models the short-read
error. -/
def read_header (e : Endian) (file : List Nat) (pos : Nat) :
    Option (Nat × Nat × Nat) :=
  match readExact file pos TAGCACHE_HEADER_SIZE with
  | none => none
  | some hdr =>
    some (read_u32 e (hdr.take 4), read_u32 e ((hdr.drop 4).take 4),
      read_u32 e (hdr.drop 8))

/-- `TagCache::read_tag_string`: resolve a side-file string at seek offset
`seek` of tag kind `tag`.  A non-positive seek means "no value"; a short read
of the 8-byte sub-header yields no value; a zero length yields no value; a
short read of the payload is an error. -/
def read_tag_string (st : TagCache) (tag : Int) (seek : Int) :
    Except String (Option String) :=
  if seek ≤ 0 then .ok none
  else
    match st.tagFiles tag with
    | none => .error "Failed opening tagcache"
    | some file =>
      let pos := seek.toNat
      let entry := readUpTo file pos TAGFILE_ENTRY_HEADER_SIZE
      if entry.length ≠ TAGFILE_ENTRY_HEADER_SIZE then .ok none
      else
        let tag_length := read_u32 st.endian (entry.take 4)
        if tag_length = 0 then .ok none
        else
          match readExact file (pos + TAGFILE_ENTRY_HEADER_SIZE) tag_length with
          | none => .error "Failed reading tagcache string"
          | some data =>
            if data.isEmpty then .ok none
            else .ok (some (decodeTagValue data))

/-- The scan loop of `TagCache::load_path_index`: starting at `pos`, read up
to `count` sub-entries (8-byte header + string), accumulating path-to-row-id
bindings.  A short read of an 8-byte header stops the scan early without
error; a zero-length entry is skipped without consuming payload bytes; an id
that does not fit in `i32` or a short payload read is an error. -/
def scan_entries (e : Endian) (file : List Nat) :
    Nat → Nat → List (String × Int) → Except String (List (String × Int))
  | _, 0, acc => .ok acc
  | pos, n + 1, acc =>
    let entry := readUpTo file pos TAGFILE_ENTRY_HEADER_SIZE
    if entry.length ≠ TAGFILE_ENTRY_HEADER_SIZE then .ok acc
    else
      let tag_length := read_u32 e (entry.take 4)
      let idx_id := read_u32 e (entry.drop 4)
      if tag_length = 0 then
        scan_entries e file (pos + TAGFILE_ENTRY_HEADER_SIZE) n acc
      else if 2 ^ 31 ≤ idx_id then .error "Invalid tagcache index id"
      else
        match readExact file (pos + TAGFILE_ENTRY_HEADER_SIZE) tag_length with
        | none => .error "Failed reading tagcache path"
        | some data =>
          scan_entries e file (pos + TAGFILE_ENTRY_HEADER_SIZE + tag_length) n
            ((decodeTagValue data, (idx_id : Int)) :: acc)

/-- The body of `TagCache::load_path_index` when the index is not yet
memoized: open the reverse-index side file (`TAG_FILENAME`), read its 12-byte
header, check the magic, then scan `entry_count` sub-entries starting at byte
12. -/
def build_path_index (st : TagCache) : Except String (List (String × Int)) :=
  match st.tagFiles TAG_FILENAME with
  | none => .error "Failed opening tagcache"
  | some file =>
    match read_header st.endian file 0 with
    | none => .error "Short read when parsing tagcache header"
    | some (magic, _data_size, entry_count) =>
      if magic ≠ TAGCACHE_MAGIC then
        .error "Tagcache filename index has invalid header"
      else scan_entries st.endian file TAGCACHE_HEADER_SIZE entry_count []

/-- `TagCache::load_path_index`: return the memoized index if present, else
build it.  (The source also stores the freshly built index back into
`self.path_index`; since the build is a pure function of the unchanging
files, that memoization is observationally invisible and the model returns
the same value on every call.) -/
def load_path_index (st : TagCache) : Except String (List (String × Int)) :=
  match st.path_index with
  | some index => .ok index
  | none => build_path_index st

/-- `HashMap::get` on the association-list index (head shadows tail,
matching later-insert-wins). -/
def lookupIdx (index : List (String × Int)) (path : String) : Option Int :=
  (index.find? (fun kv => kv.1 == path)).map (fun kv => kv.2)

/-- `TagCache::find_idx_id`. -/
def find_idx_id (st : TagCache) (path : String) : Except String (Option Int) :=
  match load_path_index st with
  | .error e => .error e
  | .ok index => .ok (lookupIdx index path)

/-- `TagCache::read_index_entry`: read master row `idx_id` (96 bytes at
`master_header_size + idx_id * entry_size`) as 24 signed 32-bit fields. -/
def chunks4 : List Nat → List (List Nat)
  | a :: b :: c :: d :: rest => [a, b, c, d] :: chunks4 rest
  | _ => []

/-- `TagCache::read_index_entry` (see `chunks4` for the `chunks_exact(4)`
decomposition). -/
def read_index_entry (st : TagCache) (idx_id : Int) : Except String (List Int) :=
  if idx_id < 0 then .error "Invalid tagcache index id"
  else
    match readExact st.master (MASTER_HEADER_SIZE + idx_id.toNat * ENTRY_SIZE)
        ENTRY_SIZE with
    | none => .error "Short read for index entry"
    | some raw => .ok ((chunks4 raw).map (read_i32 st.endian))

/-- `TagCache::get_track_info`: look the path up in the reverse index, read
the master row, resolve artist (tag 0), title (tag 3) and album (tag 1), and
return metadata unless artist or title is empty.  The duration field (tag 14)
is clamped at 0 and exposed as truncated whole seconds. -/
def get_track_info (st : TagCache) (path : String) :
    Except String (Option TrackInfo) :=
  match find_idx_id st path with
  | .error e => .error e
  | .ok none => .ok none
  | .ok (some idx_id) =>
    match read_index_entry st idx_id with
    | .error e => .error e
    | .ok entry =>
      match read_tag_string st 0 (entry.getD 0 0) with
      | .error e => .error e
      | .ok artistOpt =>
        match read_tag_string st 3 (entry.getD 3 0) with
        | .error e => .error e
        | .ok titleOpt =>
          match read_tag_string st 1 (entry.getD 1 0) with
          | .error e => .error e
          | .ok albumOpt =>
            let artist := artistOpt.getD ""
            let title := titleOpt.getD ""
            let duration_ms : Int := max (entry.getD 14 0) 0
            let duration_seconds := Int.tdiv duration_ms 1000
            if artist = "" ∨ title = "" then .ok none
            else
              .ok (some
                { artist := artist
                  title := title
                  album := albumOpt.bind (fun v => if v = "" then none else some v)
                  duration_seconds := duration_seconds })

/-! ### Eligibility filter and track assembler (src/scrobble.rs) -/

/-- `PlaybackEntry` (the spec's PlaybackSample). -/
structure PlaybackEntry where
  timestamp : Int
  elapsed_ms : Int
  total_ms : Int
  path : String
deriving DecidableEq

/-- `MIN_TRACK_SECONDS`. -/
def MIN_TRACK_SECONDS : Int := 30

/-- `is_scrobble_eligible` (`Int.tdiv` is Rust's truncating `i64` division). -/
def is_scrobble_eligible (entry : PlaybackEntry) : Bool :=
  if entry.total_ms ≤ 0 then false
  else if Int.tdiv entry.total_ms 1000 < MIN_TRACK_SECONDS then false
  else decide (min (Int.tdiv entry.total_ms 2) 240000 ≤ entry.elapsed_ms)

/-- `ScrobbleTrack` (the spec's ScrobbleRecord). -/
structure ScrobbleTrack where
  artist : String
  title : String
  album : Option String
  timestamp : Int
  duration : Int
deriving DecidableEq

/-- The `ScrobbleTrack` literal built inside `build_scrobble_tracks` for one
entry and its metadata. -/
def trackOf (info : TrackInfo) (entry : PlaybackEntry) : ScrobbleTrack :=
  { artist := info.artist
    title := info.title
    album := info.album
    timestamp := entry.timestamp
    duration := info.duration_seconds }

/-- `build_scrobble_tracks`: walk the playback entries in order; skip
ineligible ones; for eligible ones query the tag cache — a lookup error
aborts, a `None` records the path in the missing list, a `Some` emits a
record.  Input order is preserved in both output lists. -/
def build_scrobble_tracks (st : TagCache) :
    List PlaybackEntry → Except String (List ScrobbleTrack × List String)
  | [] => .ok ([], [])
  | entry :: rest =>
    if is_scrobble_eligible entry then
      match get_track_info st entry.path with
      | .error e => .error e
      | .ok none =>
        match build_scrobble_tracks st rest with
        | .error e => .error e
        | .ok (tracks, missing) => .ok (tracks, entry.path :: missing)
      | .ok (some info) =>
        match build_scrobble_tracks st rest with
        | .error e => .error e
        | .ok (tracks, missing) => .ok (trackOf info entry :: tracks, missing)
    else build_scrobble_tracks st rest

/-! ### The playback log parser (src/rockbox.rs, `parse_playback_log`)

The parser works on the text content of the log file (the model takes the
already-read `String`; the `IoError` from `read_to_string` is outside the
model).  The host-timezone conversion `local_timestamp_to_utc` depends on
the environment's timezone database, so it is abstracted as a parameter
`tz : Int → Int`; no claim depends on its values. -/

/-- `PLAYBACK_LOG_PARTS`. -/
def PLAYBACK_LOG_PARTS : Nat := 4

/-- Rust `char::is_whitespace`: the Unicode White_Space property
(U+0009..U+000D, U+0020, U+0085, U+00A0, U+1680, U+2000..U+200A, U+2028,
U+2029, U+202F, U+205F, U+3000). -/
def isRustWhitespace (c : Char) : Bool :=
  decide ((0x09 ≤ c.toNat ∧ c.toNat ≤ 0x0D) ∨ c.toNat = 0x20 ∨ c.toNat = 0x85 ∨
    c.toNat = 0xA0 ∨ c.toNat = 0x1680 ∨
    (0x2000 ≤ c.toNat ∧ c.toNat ≤ 0x200A) ∨ c.toNat = 0x2028 ∨
    c.toNat = 0x2029 ∨ c.toNat = 0x202F ∨ c.toNat = 0x205F ∨ c.toNat = 0x3000)

/-- `str::trim`: Unicode White_Space stripped from both ends. -/
def trimChars (l : List Char) : List Char :=
  ((l.dropWhile isRustWhitespace).reverse.dropWhile isRustWhitespace).reverse

/-- `str::splitn(n, sep)`: split on the first `n - 1` separators; the last
part keeps any further separators. -/
def splitnChar : Nat → Char → List Char → List (List Char)
  | 0, _, _ => []
  | 1, _, s => [s]
  | n + 2, sep, s =>
    match s.dropWhile (fun c => c ≠ sep) with
    | [] => [s.takeWhile (fun c => c ≠ sep)]
    | _ :: rest => s.takeWhile (fun c => c ≠ sep) :: splitnChar (n + 1) sep rest

/-- `str::parse::<i64>`: optional sign, one or more ASCII digits, and the
value must fit in a signed 64-bit integer. -/
def parse_i64 (s : List Char) : Option Int :=
  match s with
  | [] => none
  | c :: rest =>
    let sign : Int := if c = '-' then -1 else 1
    let digits := if c = '-' ∨ c = '+' then rest else s
    if digits = [] then none
    else if digits.all Char.isDigit then
      let v : Int := sign * digits.foldl (fun a d => a * 10 + ((d.toNat : Int) - 48)) 0
      if -(2 ^ 63) ≤ v ∧ v ≤ 2 ^ 63 - 1 then some v else none
    else none

/-- The body of `parse_playback_log`'s loop for one raw line: trim, skip
blank and `#`-prefixed lines, split into exactly 4 colon-separated fields,
parse the first three as `i64` (applying the timezone conversion to the
first), and keep the fourth as the path.  `none` means the line is silently
skipped. -/
def parse_log_line (tz : Int → Int) (line : List Char) : Option PlaybackEntry :=
  let cleaned := trimChars line
  if cleaned.isEmpty ∨ cleaned.headD ' ' = '#' then none
  else
    let parts := splitnChar PLAYBACK_LOG_PARTS ':' cleaned
    if parts.length ≠ PLAYBACK_LOG_PARTS then none
    else
      match parse_i64 (parts.getD 0 []) with
      | none => none
      | some rawTimestamp =>
        match parse_i64 (parts.getD 1 []) with
        | none => none
        | some elapsed =>
          match parse_i64 (parts.getD 2 []) with
          | none => none
          | some total =>
            some
              { timestamp := tz rawTimestamp
                elapsed_ms := elapsed
                total_ms := total
                path := String.mk (parts.getD 3 []) }

/-- `str::lines`: split on newlines, with terminator semantics (no empty
trailing line) and trailing carriage returns stripped.  Since the loop body
trims each line and skips blanks, the terminator handling is invisible
downstream; it is modelled faithfully anyway. -/
def splitOnNewline : List Char → List (List Char)
  | [] => [[]]
  | c :: rest =>
    if c = '\n' then [] :: splitOnNewline rest
    else
      match splitOnNewline rest with
      | [] => [[c]]
      | h :: t => (c :: h) :: t

/-- `str::lines` (see `splitOnNewline`). -/
def linesOf (l : List Char) : List (List Char) :=
  let parts := splitOnNewline l
  let parts := match parts.getLast? with
    | some [] => parts.dropLast
    | _ => parts
  parts.map (fun line => if line.getLast? = some '\r' then line.dropLast else line)

/-- `parse_playback_log`, on the file's text content: one pass over the
lines, appending each successfully parsed entry. -/
def parse_playback_log (tz : Int → Int) (raw : String) : List PlaybackEntry :=
  (linesOf raw.data).foldl
    (fun acc line =>
      match parse_log_line tz line with
      | some entry => acc ++ [entry]
      | none => acc)
    []

/-! ### Request signing (src/service.rs, `sign_params`)

The one-way digest (`md5::compute` + lowercase-hex formatting) is an
external library call; it is abstracted as a parameter
`digest : String → String` applied to the exact byte string the source
builds.  Rust's `String::cmp` is byte-wise lexicographic comparison of the
UTF-8 encodings, which coincides with lexicographic comparison of the
code-point sequences; `nameKey` compares those (`Char`'s order is the
code-point order). -/

/-- The byte-wise sort key of a parameter name. -/
def nameKey (s : String) : List Char :=
  s.data

/-- `sorted.sort_by(|a, b| a.0.cmp(&b.0))`'s ordering on parameters. -/
def nameLe (a b : String × String) : Prop :=
  nameKey a.1 ≤ nameKey b.1

instance : DecidableRel nameLe := fun a b => by unfold nameLe; infer_instance

instance : IsTotal (String × String) nameLe :=
  ⟨fun a b => le_total (nameKey a.1) (nameKey b.1)⟩

instance : IsTrans (String × String) nameLe :=
  ⟨fun _ _ _ h1 h2 => le_trans h1 h2⟩

/-- The stable sort of the parameter list by name.  (Rust's `sort_by` is a
stable sort; a stable sort by a given key order is extensionally unique, so
insertion sort computes the same list.) -/
def sortByName (params : List (String × String)) : List (String × String) :=
  List.insertionSort nameLe params

/-- The byte string `sign_params` feeds to the digest: every sorted name
immediately followed by its value, no separators, then the secret. -/
def signBase (params : List (String × String)) (secret : String) : String :=
  ((sortByName params).foldl (fun acc kv => acc ++ kv.1 ++ kv.2) "") ++ secret

/-- `sign_params`. -/
def sign_params (digest : String → String) (params : List (String × String))
    (secret : String) : String :=
  digest (signBase params secret)

/-- The parameter list `scrobble_track` builds before signing: the six fixed
parameters, then `album` if present, then `duration` if positive. -/
def scrobble_base_params (apiKey sessionKey : String) (track : ScrobbleTrack) :
    List (String × String) :=
  [("method", "track.scrobble"), ("artist", track.artist),
   ("track", track.title), ("timestamp", toString track.timestamp),
   ("api_key", apiKey), ("sk", sessionKey)]
  ++ (match track.album with
      | some album => [("album", album)]
      | none => [])
  ++ (if 0 < track.duration then [("duration", toString track.duration)] else [])

/-- The full form body `scrobble_track` posts: the signed parameters, then
`api_sig` (computed over them), then `format=json`. -/
def scrobble_request_params (digest : String → String) (secret apiKey sessionKey : String)
    (track : ScrobbleTrack) : List (String × String) :=
  let params := scrobble_base_params apiKey sessionKey track
  params ++ [("api_sig", sign_params digest params secret), ("format", "json")]

/-- The parameters of a request that enter its signature: everything except
the `api_sig` and `format` fields. -/
def signedParams (params : List (String × String)) : List (String × String) :=
  params.filter (fun kv => ¬(kv.1 = "api_sig" ∨ kv.1 = "format"))

/-! ### Scrobble response interpretation (src/service.rs)

`serde_json::Value` is modelled by `Json`; JSON numbers are modelled as
integers (the payload fields the source inspects are integral).  The two
tolerated response shapes are the `ScrobbleResponse` struct parse
(`check_scrobble_from_struct`) and the generic `Value` fallback
(`check_scrobble_from_value`); the serde deserialization of each struct,
including the untagged enums and optional fields, is modelled by the
`parse*` functions, where `none` is a deserialization failure. -/

/-- Follows the claim's words: a 24-byte header whose first three 4-byte
fields are magic, data size and entry count, the rest reserved. -/
def read_header24_claim (e : Endian) (file : List Nat) :
    Option (Nat × Nat × Nat) :=
  match readExact file 0 24 with
  | none => none
  | some hdr =>
    some (read_u32 e (hdr.take 4), read_u32 e ((hdr.drop 4).take 4),
      read_u32 e ((hdr.drop 8).take 4))

/-- Follows the claim's words: read a 24-byte master-shaped header, then scan
`entry_count` sub-entries starting at byte 24. -/
def build_path_index_claim (st : TagCache) : Except String (List (String × Int)) :=
  match st.tagFiles TAG_FILENAME with
  | none => .error "Failed opening tagcache"
  | some file =>
    match read_header24_claim st.endian file with
    | none => .error "Short read when parsing tagcache header"
    | some (magic, _data_size, entry_count) =>
      if magic ≠ TAGCACHE_MAGIC then
        .error "Tagcache filename index has invalid header"
      else scan_entries st.endian file 24 entry_count []

/-! ### Concrete states used by witnesses and counterexamples -/

/-- A 96-byte master row (little endian): artist seek 0, album seek 0, title
seek 1, duration 5000 ms, all other fields 0. -/
def w4Row : List Nat :=
  [0, 0, 0, 0] ++ [0, 0, 0, 0] ++ [0, 0, 0, 0] ++ [1, 0, 0, 0]
    ++ List.replicate 40 0 ++ [136, 19, 0, 0] ++ List.replicate 36 0

/-- A master file: 24-byte header (content irrelevant to row reads) and one
row. -/
def w4Master : List Nat := List.replicate 24 0 ++ w4Row

/-- A side file holding the string `"T"` (length 2, null-terminated) at seek
offset 1. -/
def w4Title : List Nat := [0, 2, 0, 0, 0, 0, 0, 0, 0, 84, 0]

/-- A reader whose memoized reverse index maps `"p"` to row 0; the row's
artist seek is 0 (no value) while its title resolves to `"T"`. -/
def w4St : TagCache :=
  { endian := .little
    master := w4Master
    tagFiles := fun t => if t = 3 then some w4Title else none
    path_index := some [("p", 0)] }

/-- The 24 signed fields of `w4Row`. -/
def w4Entry : List Int :=
  [0, 0, 0, 1] ++ List.replicate 10 0 ++ [5000] ++ List.replicate 9 0

/-- A 96-byte master row whose duration field (tag 14) holds -1500 ms
(bytes of 0xFFFFFA24, little endian); artist and title seeks are 1. -/
def cx9Row : List Nat :=
  [1, 0, 0, 0] ++ [0, 0, 0, 0] ++ [0, 0, 0, 0] ++ [1, 0, 0, 0]
    ++ List.replicate 40 0 ++ [36, 250, 255, 255] ++ List.replicate 36 0

/-- Master file holding `cx9Row`. -/
def cx9Master : List Nat := List.replicate 24 0 ++ cx9Row

/-- A side file holding the string `"A"` at seek offset 1. -/
def cx9Str : List Nat := [0, 2, 0, 0, 0, 0, 0, 0, 0, 65, 0]

/-- A reader mapping `"p"` to the row with a negative stored duration. -/
def cx9St : TagCache :=
  { endian := .little
    master := cx9Master
    tagFiles := fun t => if t = 0 ∨ t = 3 then some cx9Str else none
    path_index := some [("p", 0)] }

/-- A reader whose tag-0 side file is 3 bytes long, so any positive seek
truncates the 8-byte sub-header. -/
def cx5St : TagCache :=
  { endian := .little
    master := []
    tagFiles := fun t => if t = 0 then some [0, 0, 0] else none
    path_index := none }

/-- A reader whose tag-0 side file holds a full 8-byte sub-header at seek 1
(declared string length 2) but a truncated payload. -/
def cx5bSt : TagCache :=
  { endian := .little
    master := []
    tagFiles := fun t => if t = 0 then some [0, 2, 0, 0, 0, 0, 0, 0, 0] else none
    path_index := none }

/-- A 22-byte reverse-index file: 12-byte header (magic little endian, data
size 0, entry count 1) followed by one sub-entry (length 2, id 7, `"p"`
null-terminated).  Too short to even hold the 24-byte header the claim
describes. -/
def cx6File : List Nat :=
  [16, 72, 67, 84, 0, 0, 0, 0, 1, 0, 0, 0] ++ [2, 0, 0, 0, 7, 0, 0, 0] ++ [112, 0]

/-- A reader whose reverse-index side file is `cx6File`. -/
def cx6St : TagCache :=
  { endian := .little
    master := []
    tagFiles := fun t => if t = TAG_FILENAME then some cx6File else none
    path_index := none }

/-- The 24 signed fields of `cx9Row` (field 14 is -1500). -/
def cx9Entry : List Int :=
  [1, 0, 0, 1] ++ List.replicate 10 0 ++ [-1500] ++ List.replicate 9 0

/-- Claim C1: for every playback sample, the eligibility filter accepts it if
and only if `total_ms > 0`, `total_ms / 1000 ≥ 30` and
`elapsed_ms ≥ min(total_ms / 2, 240000)` (truncating division); in
particular a 29000 ms track is rejected even when fully played, a 30000 ms
track with 15000 ms elapsed is accepted, a 600000 ms track with 239000 ms
elapsed is rejected, and with 240000 ms elapsed accepted. -/
theorem C1_eligibility_rule :
    (∀ entry : PlaybackEntry,
      is_scrobble_eligible entry = true ↔
        (0 < entry.total_ms ∧ 30 ≤ Int.tdiv entry.total_ms 1000 ∧
          min (Int.tdiv entry.total_ms 2) 240000 ≤ entry.elapsed_ms)) ∧
    is_scrobble_eligible ⟨0, 29000, 29000, ""⟩ = false ∧
    is_scrobble_eligible ⟨0, 15000, 30000, ""⟩ = true ∧
    is_scrobble_eligible ⟨0, 239000, 600000, ""⟩ = false ∧
    is_scrobble_eligible ⟨0, 240000, 600000, ""⟩ = true := by
  refine ⟨fun entry => ?_, by decide, by decide, by decide, by decide⟩
  constructor
  · intro h
    unfold is_scrobble_eligible MIN_TRACK_SECONDS at h
    split_ifs at h with h1 h2
    exact ⟨not_le.mp h1, not_lt.mp h2, of_decide_eq_true h⟩
  · rintro ⟨ha, hb, hc⟩
    unfold is_scrobble_eligible MIN_TRACK_SECONDS
    rw [if_neg (not_le.mpr ha), if_neg (not_lt.mpr hb)]
    exact decide_eq_true hc

/-- Claim C5, counterexample: at positive seek offset 1 into a 3-byte side
file, the 8-byte sub-header cannot be fully read, yet `read_tag_string`
returns `Ok(None)` — it silently yields no value instead of failing with an
error as the claim states. -/
theorem C5_counterexample :
    cx5St.tagFiles 0 = some [0, 0, 0] ∧
    ([0, 0, 0] : List Nat).length < (1 : Int).toNat + TAGFILE_ENTRY_HEADER_SIZE ∧
    read_tag_string cx5St 0 1 = .ok none ∧
    (read_tag_string cx5St 0 1).isOk = true := by
  refine ⟨rfl, by decide, by decide, by decide⟩

/-- Claim C5, amended: when resolving a side-file tag string from a positive
seek offset, a sub-header that cannot be fully read (fewer than 8 bytes
available) makes the operation silently yield no value (`Ok(None)`), not an
error; only a truncated string payload (a declared nonzero length that runs
past the end of the file) is an error. -/
theorem C5_truncated_record :
    (∀ (st : TagCache) (tag seek : Int) (file : List Nat),
      0 < seek → st.tagFiles tag = some file →
      file.length < seek.toNat + TAGFILE_ENTRY_HEADER_SIZE →
      read_tag_string st tag seek = .ok none) ∧
    (∀ (st : TagCache) (tag seek : Int) (file : List Nat),
      0 < seek → st.tagFiles tag = some file →
      seek.toNat + TAGFILE_ENTRY_HEADER_SIZE ≤ file.length →
      read_u32 st.endian (readUpTo file seek.toNat 4) ≠ 0 →
      file.length <
        seek.toNat + TAGFILE_ENTRY_HEADER_SIZE +
          read_u32 st.endian (readUpTo file seek.toNat 4) →
      ∃ msg, read_tag_string st tag seek = .error msg) := by
  constructor
  · intro st tag seek file h0 hfile hshort
    have hlt : ¬ seek ≤ 0 := by omega
    simp only [TAGFILE_ENTRY_HEADER_SIZE] at hshort
    have hlen : (readUpTo file seek.toNat TAGFILE_ENTRY_HEADER_SIZE).length ≠
        TAGFILE_ENTRY_HEADER_SIZE := by
      simp [readUpTo, TAGFILE_ENTRY_HEADER_SIZE]
      omega
    simp [read_tag_string, hfile, hlt, hlen]
  · intro st tag seek file h0 hfile h8 hnz hshort
    have hlt : ¬ seek ≤ 0 := by omega
    simp only [TAGFILE_ENTRY_HEADER_SIZE] at h8 hshort
    have hlen : (readUpTo file seek.toNat TAGFILE_ENTRY_HEADER_SIZE).length =
        TAGFILE_ENTRY_HEADER_SIZE := by
      simp [readUpTo, TAGFILE_ENTRY_HEADER_SIZE]
      omega
    have htake : (readUpTo file seek.toNat TAGFILE_ENTRY_HEADER_SIZE).take 4 =
        readUpTo file seek.toNat 4 := by
      simp [readUpTo, TAGFILE_ENTRY_HEADER_SIZE, List.take_take]
    have hre : readExact file (seek.toNat + TAGFILE_ENTRY_HEADER_SIZE)
        (read_u32 st.endian (readUpTo file seek.toNat 4)) = none := by
      simp only [readExact, TAGFILE_ENTRY_HEADER_SIZE, ite_eq_right_iff]
      omega
    refine ⟨"Failed reading tagcache string", ?_⟩
    simp [read_tag_string, hfile, hlt, hlen, htake, hnz, hre]

/-- Claim C5, witness: truncated sub-header at `cx5St` yields `Ok(None)`;
truncated string payload at `cx5bSt` yields an error. -/
theorem C5_truncated_record_witness :
    read_tag_string cx5St 0 1 = .ok none ∧
    ∃ msg, read_tag_string cx5bSt 0 1 = .error msg :=
  ⟨C5_truncated_record.1 cx5St 0 1 [0, 0, 0] (by decide) rfl (by decide),
   C5_truncated_record.2 cx5bSt 0 1 [0, 2, 0, 0, 0, 0, 0, 0, 0] (by decide) rfl
     (by decide) (by decide) (by decide)⟩

/-- Claim C10: during the reverse-index scan, a sub-entry whose 8-byte header
cannot be fully read terminates the scan without an error, yielding the
index accumulated so far; and a sub-entry whose length field is 0 is skipped
without consuming any string bytes, the scan continuing right after its
8-byte header. -/
theorem C10_scan_truncation_and_zero_length :
    (∀ (e : Endian) (file : List Nat) (pos n : Nat) (acc : List (String × Int)),
      file.length < pos + TAGFILE_ENTRY_HEADER_SIZE →
      scan_entries e file pos n acc = .ok acc) ∧
    (∀ (e : Endian) (file : List Nat) (pos n : Nat) (acc : List (String × Int)),
      pos + TAGFILE_ENTRY_HEADER_SIZE ≤ file.length →
      read_u32 e (readUpTo file pos 4) = 0 →
      scan_entries e file pos (n + 1) acc =
        scan_entries e file (pos + TAGFILE_ENTRY_HEADER_SIZE) n acc) := by
  constructor
  · intro e file pos n acc hshort
    cases n with
    | zero => rfl
    | succ n =>
      simp only [TAGFILE_ENTRY_HEADER_SIZE] at hshort
      have hlen : (readUpTo file pos TAGFILE_ENTRY_HEADER_SIZE).length ≠
          TAGFILE_ENTRY_HEADER_SIZE := by
        simp [readUpTo, TAGFILE_ENTRY_HEADER_SIZE]
        omega
      simp [scan_entries, hlen]
  · intro e file pos n acc h8 hzero
    simp only [TAGFILE_ENTRY_HEADER_SIZE] at h8
    have hlen : (readUpTo file pos TAGFILE_ENTRY_HEADER_SIZE).length =
        TAGFILE_ENTRY_HEADER_SIZE := by
      simp [readUpTo, TAGFILE_ENTRY_HEADER_SIZE]
      omega
    have htake : (readUpTo file pos TAGFILE_ENTRY_HEADER_SIZE).take 4 =
        readUpTo file pos 4 := by
      simp [readUpTo, TAGFILE_ENTRY_HEADER_SIZE, List.take_take]
    simp [scan_entries, hlen, htake, hzero]

/-- Claim C10, witness: a scan hitting end-of-file keeps the partial index;
a zero-length sub-entry advances exactly 8 bytes. -/
theorem C10_scan_witness :
    scan_entries .little [] 0 1 [("x", 1)] = .ok [("x", 1)] ∧
    scan_entries .little [0, 0, 0, 0, 0, 0, 0, 0] 0 1 [] =
      scan_entries .little [0, 0, 0, 0, 0, 0, 0, 0] 8 0 [] :=
  ⟨C10_scan_truncation_and_zero_length.1 .little [] 0 1 [("x", 1)] (by decide),
   C10_scan_truncation_and_zero_length.2 .little [0, 0, 0, 0, 0, 0, 0, 0] 0 0 []
     (by decide) (by decide)⟩

/-- Claim C6, counterexample: `cx6File` is a 22-byte reverse-index file whose
12-byte header declares one entry; the code reads that entry (yielding path
`"p"` with row id 7) starting at byte 12, whereas under the claim's
24-byte-header layout the file could not even hold a header, so the
claim-modelled reader fails.  The first path sub-entry thus begins 12 — not
24 — bytes into the file. -/
theorem C6_counterexample :
    build_path_index cx6St = .ok [("p", 7)] ∧
    build_path_index_claim cx6St =
      .error "Short read when parsing tagcache header" ∧
    decide (build_path_index cx6St = build_path_index_claim cx6St) = false := by
  exact ⟨by decide, by decide, by decide⟩

/-- Claim C6, amended: the reverse-index reader first reads a 12-byte header
of the same shape as the leading fields of the master header (magic, data
size, entry count — no reserved field), so the first path sub-entry begins
12 bytes into the file, after which at most `entry_count` repetitions of the
8-byte sub-header plus string are scanned. -/
theorem C6_reverse_index_layout :
    (∀ (e : Endian) (file : List Nat),
      TAGCACHE_HEADER_SIZE ≤ file.length →
      read_header e file 0 =
        some (read_u32 e (readUpTo file 0 4), read_u32 e (readUpTo file 4 4),
          read_u32 e (readUpTo file 8 4))) ∧
    (∀ (st : TagCache) (file : List Nat) (ds cnt : Nat),
      st.tagFiles TAG_FILENAME = some file →
      read_header st.endian file 0 = some (TAGCACHE_MAGIC, ds, cnt) →
      build_path_index st =
        scan_entries st.endian file TAGCACHE_HEADER_SIZE cnt []) := by
  constructor
  · intro e file hlen
    simp only [TAGCACHE_HEADER_SIZE] at hlen
    have hre : readExact file 0 TAGCACHE_HEADER_SIZE =
        some (readUpTo file 0 TAGCACHE_HEADER_SIZE) := by
      simp [readExact, TAGCACHE_HEADER_SIZE]
      omega
    have h1 : (readUpTo file 0 TAGCACHE_HEADER_SIZE).take 4 = readUpTo file 0 4 := by
      simp [readUpTo, TAGCACHE_HEADER_SIZE, List.take_take]
    have h2 : ((readUpTo file 0 TAGCACHE_HEADER_SIZE).drop 4).take 4 =
        readUpTo file 4 4 := by
      simp [readUpTo, TAGCACHE_HEADER_SIZE, List.drop_take, List.take_take]
    have h3 : (readUpTo file 0 TAGCACHE_HEADER_SIZE).drop 8 = readUpTo file 8 4 := by
      simp [readUpTo, TAGCACHE_HEADER_SIZE, List.drop_take]
    simp [read_header, hre, h1, h2, h3]
  · intro st file ds cnt hfile hheader
    simp [build_path_index, hfile, hheader]

/-- Claim C6, witness: on the concrete 22-byte reverse-index file, the header
read returns (magic, 0, 1) consuming 12 bytes, and the build scans from
byte 12. -/
theorem C6_reverse_index_layout_witness :
    read_header .little cx6File 0 =
      some (read_u32 .little (readUpTo cx6File 0 4),
        read_u32 .little (readUpTo cx6File 4 4),
        read_u32 .little (readUpTo cx6File 8 4)) ∧
    build_path_index cx6St =
      scan_entries .little cx6File TAGCACHE_HEADER_SIZE 1 [] :=
  ⟨C6_reverse_index_layout.1 .little cx6File (by decide),
   C6_reverse_index_layout.2 cx6St cx6File 0 1 rfl (by decide)⟩

/-- Helper: any metadata returned by `get_track_info` has a nonnegative
duration (the stored milliseconds are clamped at 0 before division). -/
theorem get_track_info_duration_nonneg (st : TagCache) (path : String)
    (info : TrackInfo) (h : get_track_info st path = .ok (some info)) :
    0 ≤ info.duration_seconds := by
  unfold get_track_info at h
  split at h <;> first
    | exact Except.noConfusion h
    | exact Option.noConfusion (Except.ok.inj h)
    | skip
  split at h <;> first
    | exact Except.noConfusion h
    | exact Option.noConfusion (Except.ok.inj h)
    | skip
  split at h <;> first
    | exact Except.noConfusion h
    | exact Option.noConfusion (Except.ok.inj h)
    | skip
  split at h <;> first
    | exact Except.noConfusion h
    | exact Option.noConfusion (Except.ok.inj h)
    | skip
  split at h <;> first
    | exact Except.noConfusion h
    | exact Option.noConfusion (Except.ok.inj h)
    | skip
  dsimp only at h
  split at h <;> first
    | exact Except.noConfusion h
    | exact Option.noConfusion (Except.ok.inj h)
    | skip
  simp only [Except.ok.injEq, Option.some.injEq] at h
  subst h
  exact Int.tdiv_nonneg (le_max_right _ 0) (by norm_num)

/-- Claim C4: `get_track_info` returns `None` for every path absent from the
reverse index; it also returns `None` for a present path whose resolved
artist or title is empty even when all side-file reads succeed (album
included); and any returned metadata has nonempty artist and title. -/
theorem C4_lookup_none_rules :
    (∀ (st : TagCache) (path : String) (index : List (String × Int)),
      load_path_index st = .ok index → lookupIdx index path = none →
      get_track_info st path = .ok none) ∧
    (∀ (st : TagCache) (path : String) (index : List (String × Int))
        (idx_id : Int) (entry : List Int) (aOpt tOpt albOpt : Option String),
      load_path_index st = .ok index → lookupIdx index path = some idx_id →
      read_index_entry st idx_id = .ok entry →
      read_tag_string st 0 (entry.getD 0 0) = .ok aOpt →
      read_tag_string st 3 (entry.getD 3 0) = .ok tOpt →
      read_tag_string st 1 (entry.getD 1 0) = .ok albOpt →
      (aOpt.getD "" = "" ∨ tOpt.getD "" = "") →
      get_track_info st path = .ok none) ∧
    (∀ (st : TagCache) (path : String) (info : TrackInfo),
      get_track_info st path = .ok (some info) →
      info.artist ≠ "" ∧ info.title ≠ "") := by
  refine ⟨?_, ?_, ?_⟩
  · intro st path index hload hlookup
    simp [get_track_info, find_idx_id, hload, hlookup]
  · intro st path index idx_id entry aOpt tOpt albOpt hload hlookup hentry ha ht halb hempty
    rcases hempty with h | h <;>
      simp only [get_track_info, find_idx_id, hload, hlookup, hentry, ha, ht, halb] <;>
      simp [h]
  · intro st path info h
    unfold get_track_info at h
    split at h <;> first
      | exact Except.noConfusion h
      | exact Option.noConfusion (Except.ok.inj h)
      | skip
    split at h <;> first
      | exact Except.noConfusion h
      | exact Option.noConfusion (Except.ok.inj h)
      | skip
    split at h <;> first
      | exact Except.noConfusion h
      | exact Option.noConfusion (Except.ok.inj h)
      | skip
    split at h <;> first
      | exact Except.noConfusion h
      | exact Option.noConfusion (Except.ok.inj h)
      | skip
    split at h <;> first
      | exact Except.noConfusion h
      | exact Option.noConfusion (Except.ok.inj h)
      | skip
    dsimp only at h
    split at h <;> first
      | exact Except.noConfusion h
      | exact Option.noConfusion (Except.ok.inj h)
      | skip
    rename_i hcond
    simp only [Except.ok.injEq, Option.some.injEq] at h
    subst h
    push_neg at hcond
    simpa using hcond

/-- Claim C4, witness: at `w4St`, the absent path `"q"` yields `None`, and
the present path `"p"` — whose artist seek is 0 so the artist resolves
empty while the title resolves to `"T"` and the album read succeeds — also
yields `None`. -/
theorem C4_lookup_none_rules_witness :
    get_track_info w4St "q" = .ok none ∧ get_track_info w4St "p" = .ok none :=
  ⟨C4_lookup_none_rules.1 w4St "q" [("p", 0)] rfl (by decide),
   C4_lookup_none_rules.2.1 w4St "p" [("p", 0)] 0 w4Entry none (some "T") none
     rfl (by decide) (by decide) (by decide) (by decide) (by decide)
     (Or.inl rfl)⟩

/-- Claim C9, counterexample: at `cx9St` the stored signed 32-bit duration
field of row 0 is -1500 ms, the lookup succeeds, and the exposed duration is
0 — not the truncating division `tdiv (-1500) 1000 = -1` of the stored
field that the claim describes (the code clamps at 0 before dividing). -/
theorem C9_counterexample :
    get_track_info cx9St "p" =
      .ok (some ⟨"A", "A", none, 0⟩) ∧
    read_index_entry cx9St 0 = .ok cx9Entry ∧
    cx9Entry.getD 14 0 = -1500 ∧
    Int.tdiv (-1500) 1000 = -1 ∧
    decide ((0 : Int) = Int.tdiv (cx9Entry.getD 14 0) 1000) = false :=
  ⟨by decide, by decide, by decide, by decide, by decide⟩

/-- Claim C9, amended: every TrackMetadata produced by a lookup exposes
duration as the truncating division by 1000 of the stored milliseconds field
clamped below at 0 (`max stored 0`); consequently every lookup result and
every assembled ScrobbleRecord has duration ≥ 0, including when the stored
signed 32-bit field is negative. -/
theorem C9_duration_clamped :
    (∀ (st : TagCache) (path : String) (index : List (String × Int))
        (idx_id : Int) (entry : List Int) (info : TrackInfo),
      load_path_index st = .ok index → lookupIdx index path = some idx_id →
      read_index_entry st idx_id = .ok entry →
      get_track_info st path = .ok (some info) →
      info.duration_seconds = Int.tdiv (max (entry.getD 14 0) 0) 1000) ∧
    (∀ (st : TagCache) (path : String) (info : TrackInfo),
      get_track_info st path = .ok (some info) →
      0 ≤ info.duration_seconds) ∧
    (∀ (st : TagCache) (entries : List PlaybackEntry)
        (tracks : List ScrobbleTrack) (missing : List String),
      build_scrobble_tracks st entries = .ok (tracks, missing) →
      ∀ t ∈ tracks, 0 ≤ t.duration) := by
  refine ⟨?_, get_track_info_duration_nonneg, ?_⟩
  · intro st path index idx_id entry info hload hlookup hentry h
    simp only [get_track_info, find_idx_id, hload, hlookup, hentry] at h
    split at h <;> first
      | exact Except.noConfusion h
      | exact Option.noConfusion (Except.ok.inj h)
      | skip
    split at h <;> first
      | exact Except.noConfusion h
      | exact Option.noConfusion (Except.ok.inj h)
      | skip
    split at h <;> first
      | exact Except.noConfusion h
      | exact Option.noConfusion (Except.ok.inj h)
      | skip
    split at h <;> first
      | exact Except.noConfusion h
      | exact Option.noConfusion (Except.ok.inj h)
      | skip
    simp only [Except.ok.injEq, Option.some.injEq] at h
    subst h
    rfl
  · intro st entries
    induction entries with
    | nil =>
      intro tracks missing h t ht
      simp only [build_scrobble_tracks, Except.ok.injEq, Prod.mk.injEq] at h
      obtain ⟨h1, _⟩ := h
      rw [← h1] at ht
      simp at ht
    | cons e rest ih =>
      intro tracks missing h t ht
      unfold build_scrobble_tracks at h
      by_cases he : is_scrobble_eligible e = true
      · rw [if_pos he] at h
        split at h <;> first
          | exact Except.noConfusion h
          | skip
        · -- lookup returned None: the path goes to the missing list
          rename_i hinfo
          split at h <;> first
            | exact Except.noConfusion h
            | skip
          rename_i tr mi hrest
          simp only [Except.ok.injEq, Prod.mk.injEq] at h
          obtain ⟨h1, _⟩ := h
          rw [← h1] at ht
          exact ih tr mi hrest t ht
        · -- lookup returned Some: a record is emitted
          rename_i info hinfo
          split at h <;> first
            | exact Except.noConfusion h
            | skip
          rename_i tr mi hrest
          simp only [Except.ok.injEq, Prod.mk.injEq] at h
          obtain ⟨h1, _⟩ := h
          rw [← h1] at ht
          rcases List.mem_cons.mp ht with hh | hh
          · subst hh
            exact get_track_info_duration_nonneg st e.path info hinfo
          · exact ih tr mi hrest t hh
      · rw [if_neg he] at h
        exact ih tracks missing h t ht

/-- Claim C9, witness: at `cx9St` the returned duration 0 equals the clamped
truncating division of the stored -1500, and is nonnegative. -/
theorem C9_duration_clamped_witness :
    ((⟨"A", "A", none, 0⟩ : TrackInfo).duration_seconds
      = Int.tdiv (max (cx9Entry.getD 14 0) 0) 1000) ∧
    0 ≤ ((⟨"A", "A", none, 0⟩ : TrackInfo).duration_seconds) :=
  ⟨C9_duration_clamped.1 cx9St "p" [("p", 0)] 0 cx9Entry _ rfl (by decide)
      (by decide) (by decide),
   C9_duration_clamped.2.1 cx9St "p" _ (by decide)⟩

/-- Claim C7: the assembler emits a ScrobbleRecord for each eligible sample
whose metadata lookup returns `Some`, appends the path to the missing list
and continues when the lookup returns `None`, preserves input order in both
lists (both outputs are order-preserving filter-maps of the input), and
returns an error only when the reader itself fails (missing metadata is
never fatal). -/
theorem C7_assembler :
    ∀ (st : TagCache) (entries : List PlaybackEntry),
      ((∀ e ∈ entries, is_scrobble_eligible e = true →
          (get_track_info st e.path).isOk = true) →
        build_scrobble_tracks st entries = .ok
          (entries.filterMap (fun e =>
            if is_scrobble_eligible e then
              match get_track_info st e.path with
              | .ok (some info) => some (trackOf info e)
              | _ => none
            else none),
           entries.filterMap (fun e =>
            if is_scrobble_eligible e then
              match get_track_info st e.path with
              | .ok none => some e.path
              | _ => none
            else none))) ∧
      (∀ msg, build_scrobble_tracks st entries = .error msg →
        ∃ e ∈ entries, is_scrobble_eligible e = true ∧
          get_track_info st e.path = .error msg) := by
  intro st entries
  constructor
  · induction entries with
    | nil => intro _; rfl
    | cons e rest ih =>
      intro hall
      have hrest := fun e' he' => hall e' (List.mem_cons_of_mem _ he')
      unfold build_scrobble_tracks
      by_cases he : is_scrobble_eligible e = true
      · rw [if_pos he]
        cases hg : get_track_info st e.path with
        | error m =>
          exfalso
          have hok := hall e (List.mem_cons_self e rest) he
          rw [hg] at hok
          simp [Except.isOk, Except.toBool] at hok
        | ok r =>
          cases r with
          | none => simp [hg, ih hrest, List.filterMap_cons, he]
          | some info => simp [hg, ih hrest, List.filterMap_cons, he]
      · rw [if_neg he]
        simp [List.filterMap_cons, he, ih hrest]
  · induction entries with
    | nil => intro msg h; simp [build_scrobble_tracks] at h
    | cons e rest ih =>
      intro msg h
      unfold build_scrobble_tracks at h
      by_cases he : is_scrobble_eligible e = true
      · rw [if_pos he] at h
        split at h
        · rename_i m hg
          obtain rfl : m = msg := by simpa using h
          exact ⟨e, List.mem_cons_self e rest, he, hg⟩
        · rename_i hg
          split at h
          · rename_i m hrest
            obtain rfl : m = msg := by simpa using h
            obtain ⟨e', hm, hel, herr⟩ := ih _ hrest
            exact ⟨e', List.mem_cons_of_mem _ hm, hel, herr⟩
          · exact Except.noConfusion h
        · rename_i info hg
          split at h
          · rename_i m hrest
            obtain rfl : m = msg := by simpa using h
            obtain ⟨e', hm, hel, herr⟩ := ih _ hrest
            exact ⟨e', List.mem_cons_of_mem _ hm, hel, herr⟩
          · exact Except.noConfusion h
      · rw [if_neg he] at h
        obtain ⟨e', hm, hel, herr⟩ := ih msg h
        exact ⟨e', List.mem_cons_of_mem _ hm, hel, herr⟩

/-- Claim C7, witness: at `cx9St`, an eligible entry for the present path
`"p"` yields a record, an eligible entry for the absent path `"q"` goes to
the missing list, and an ineligible entry is skipped — in input order. -/
theorem C7_assembler_witness :
    build_scrobble_tracks cx9St
      [⟨100, 20000, 40000, "p"⟩, ⟨200, 20000, 40000, "q"⟩, ⟨300, 0, 40000, "x"⟩] =
      .ok
        (([⟨100, 20000, 40000, "p"⟩, ⟨200, 20000, 40000, "q"⟩,
            ⟨300, 0, 40000, "x"⟩] : List PlaybackEntry).filterMap (fun e =>
          if is_scrobble_eligible e then
            match get_track_info cx9St e.path with
            | .ok (some info) => some (trackOf info e)
            | _ => none
          else none),
         ([⟨100, 20000, 40000, "p"⟩, ⟨200, 20000, 40000, "q"⟩,
            ⟨300, 0, 40000, "x"⟩] : List PlaybackEntry).filterMap (fun e =>
          if is_scrobble_eligible e then
            match get_track_info cx9St e.path with
            | .ok none => some e.path
            | _ => none
          else none)) :=
  (C7_assembler cx9St
    [⟨100, 20000, 40000, "p"⟩, ⟨200, 20000, 40000, "q"⟩, ⟨300, 0, 40000, "x"⟩]).1
    (by decide)

/-- Claim C8: the playback-log parser is a per-line filter-map over the
file's lines (so it never fails and yields one sample per qualifying line,
in order); a line qualifies exactly when, after trimming, it is non-blank,
not `#`-prefixed, splits into exactly 4 colon-separated fields, and its
first three fields parse as 64-bit integers; and the sample's path is the
fourth field — whatever remains after the third delimiter, colons
included. -/
theorem C8_playback_log_rules :
    (∀ (tz : Int → Int) (raw : String),
      parse_playback_log tz raw =
        (linesOf raw.data).filterMap (parse_log_line tz)) ∧
    (∀ (tz : Int → Int) (line : List Char),
      (parse_log_line tz line).isSome = true ↔
        (¬(trimChars line).isEmpty = true ∧
         ¬(trimChars line).headD ' ' = '#' ∧
         (splitnChar PLAYBACK_LOG_PARTS ':' (trimChars line)).length =
           PLAYBACK_LOG_PARTS ∧
         (parse_i64 ((splitnChar PLAYBACK_LOG_PARTS ':'
             (trimChars line)).getD 0 [])).isSome = true ∧
         (parse_i64 ((splitnChar PLAYBACK_LOG_PARTS ':'
             (trimChars line)).getD 1 [])).isSome = true ∧
         (parse_i64 ((splitnChar PLAYBACK_LOG_PARTS ':'
             (trimChars line)).getD 2 [])).isSome = true)) ∧
    (∀ (tz : Int → Int) (line : List Char) (e : PlaybackEntry),
      parse_log_line tz line = some e →
      e.path = String.mk
        ((splitnChar PLAYBACK_LOG_PARTS ':' (trimChars line)).getD 3 [])) := by
  refine ⟨?_, ?_, ?_⟩
  · intro tz raw
    have gen : ∀ (ls : List (List Char)) (acc : List PlaybackEntry),
        ls.foldl
          (fun acc line =>
            match parse_log_line tz line with
            | some entry => acc ++ [entry]
            | none => acc) acc
          = acc ++ ls.filterMap (parse_log_line tz) := by
      intro ls
      induction ls with
      | nil => intro acc; simp
      | cons l ls ih =>
        intro acc
        cases hl : parse_log_line tz l <;>
          simp [List.filterMap_cons, hl, ih]
    unfold parse_playback_log
    rw [gen]
    simp
  · intro tz line
    simp only [parse_log_line]
    split_ifs with h1 h2
    · simp only [Option.isSome_none, Bool.false_eq_true, false_iff, not_and]
      intro ha hb
      rcases h1 with h | h
      · exact absurd h ha
      · exact absurd h hb
    · simp only [Option.isSome_none, Bool.false_eq_true, false_iff, not_and]
      intro _ _ hlen
      exact absurd hlen h2
    · obtain ⟨ha, hb⟩ := not_or.mp h1
      have hlen := not_ne_iff.mp h2
      rcases hp0 : parse_i64 ((splitnChar PLAYBACK_LOG_PARTS ':'
          (trimChars line)).getD 0 []) with _ | ts
      · exact iff_of_false (by simp [hp0]) (fun hc => by simp [hp0] at hc)
      rcases hp1 : parse_i64 ((splitnChar PLAYBACK_LOG_PARTS ':'
          (trimChars line)).getD 1 []) with _ | el
      · exact iff_of_false (by simp [hp0, hp1]) (fun hc => by simp [hp1] at hc)
      rcases hp2 : parse_i64 ((splitnChar PLAYBACK_LOG_PARTS ':'
          (trimChars line)).getD 2 []) with _ | tot
      · exact iff_of_false (by simp [hp0, hp1, hp2]) (fun hc => by simp [hp2] at hc)
      exact iff_of_true (by simp [hp0, hp1, hp2])
        ⟨ha, hb, hlen, by simp [hp0], by simp [hp1], by simp [hp2]⟩
  · intro tz line e h
    unfold parse_log_line at h
    dsimp only at h
    split_ifs at h
    split at h <;> try exact Option.noConfusion h
    split at h <;> try exact Option.noConfusion h
    split at h <;> try exact Option.noConfusion h
    simp only [Option.some.injEq] at h
    subst h
    rfl

/-- Claim C8, witness: a line whose path field contains colons parses into a
sample carrying the whole remainder, the parsed output of a small log is the
filter-map of its lines, and a line led by a form feed (Unicode whitespace
beyond ASCII) still qualifies after trimming. -/
theorem C8_playback_log_rules_witness :
    parse_playback_log (fun t => t) "1:2:30000:/a:b.mp3\n# c\n\nbad" =
      (linesOf ("1:2:30000:/a:b.mp3\n# c\n\nbad".data)).filterMap
        (parse_log_line (fun t => t)) ∧
    (⟨1, 2, 30000, "/a:b.mp3"⟩ : PlaybackEntry).path =
      String.mk ((splitnChar PLAYBACK_LOG_PARTS ':'
        (trimChars "1:2:30000:/a:b.mp3".data)).getD 3 []) ∧
    (⟨1, 2, 30000, "p"⟩ : PlaybackEntry).path =
      String.mk ((splitnChar PLAYBACK_LOG_PARTS ':'
        (trimChars "\x0C1:2:30000:p".data)).getD 3 []) :=
  ⟨C8_playback_log_rules.1 (fun t => t) "1:2:30000:/a:b.mp3\n# c\n\nbad",
   C8_playback_log_rules.2.2 (fun t => t) "1:2:30000:/a:b.mp3".data
     ⟨1, 2, 30000, "/a:b.mp3"⟩ (by decide),
   C8_playback_log_rules.2.2 (fun t => t) "\x0C1:2:30000:p".data
     ⟨1, 2, 30000, "p"⟩ (by decide)⟩

/-- Helper: the sort key is injective (a string is its character data). -/
theorem nameKey_injective : Function.Injective nameKey := by
  intro s t h
  cases s
  cases t
  exact congrArg String.mk h

/-- Helper: the sorted parameter list is sorted by name. -/
theorem sortByName_sorted (params : List (String × String)) :
    List.Sorted nameLe (sortByName params) :=
  List.sorted_insertionSort nameLe params

/-- Helper: the sorted parameter list is a permutation of the input. -/
theorem sortByName_perm (params : List (String × String)) :
    (sortByName params).Perm params :=
  List.perm_insertionSort nameLe params

/-- Helper: when parameter names are pairwise distinct, any two permutations
of the same parameter list sort to the same list (a sorted permutation with
strictly increasing keys is unique). -/
theorem sortByName_eq_of_perm (params params' : List (String × String))
    (hperm : params'.Perm params) (hnodup : (params.map Prod.fst).Nodup) :
    sortByName params' = sortByName params := by
  haveI : IsAntisymm (String × String) (fun a b => nameKey a.1 < nameKey b.1) :=
    ⟨fun a b h1 h2 => absurd h2 (not_lt.mpr (le_of_lt h1))⟩
  have hstrict : ∀ (l : List (String × String)), List.Sorted nameLe l →
      (l.map Prod.fst).Nodup →
      List.Sorted (fun a b => nameKey a.1 < nameKey b.1) l := by
    intro l hs hn
    have hne : l.Pairwise (fun a b => a.1 ≠ b.1) := List.pairwise_map.mp hn
    exact (hs.and hne).imp
      (fun h => lt_of_le_of_ne h.1 (fun hk => h.2 (nameKey_injective hk)))
  have hperm2 : (sortByName params').Perm (sortByName params) :=
    ((sortByName_perm params').trans hperm).trans (sortByName_perm params).symm
  have hn1 : ((sortByName params).map Prod.fst).Nodup :=
    (((sortByName_perm params).map Prod.fst).nodup_iff).mpr hnodup
  have hn2 : ((sortByName params').map Prod.fst).Nodup :=
    (((sortByName_perm params').map Prod.fst).nodup_iff).mpr
      (((hperm.map Prod.fst).nodup_iff).mpr hnodup)
  exact List.eq_of_perm_of_sorted hperm2
    (hstrict _ (sortByName_sorted params') hn2)
    (hstrict _ (sortByName_sorted params) hn1)

/-- Claim C2, counterexample: with the duplicate name `"a"`, the stable sort
preserves input order among equal names, so signing the permutation
`[a:2, a:1]` of `[a:1, a:2]` concatenates a different byte string and (for
any digest distinguishing them, modelled by the identity) a different
signature — refuting "signing any permutation of the same parameter list
yields the same signature" in general. -/
theorem C2_counterexample :
    List.Perm [("a", "2"), ("a", "1")] [("a", "1"), ("a", "2")] ∧
    signBase [("a", "1"), ("a", "2")] "s" = "a1a2s" ∧
    signBase [("a", "2"), ("a", "1")] "s" = "a2a1s" ∧
    decide (signBase [("a", "1"), ("a", "2")] "s" =
      signBase [("a", "2"), ("a", "1")] "s") = false ∧
    sign_params (fun input => input) [("a", "1"), ("a", "2")] "s" = "a1a2s" ∧
    sign_params (fun input => input) [("a", "2"), ("a", "1")] "s" = "a2a1s" :=
  ⟨by decide, by decide, by decide, by decide, by decide, by decide⟩

/-- Claim C2, amended: the signature is the digest of the concatenation of
each parameter name immediately followed by its value in byte-wise
(stable-sorted) order of names, with the secret appended; `api_sig` and
`format` are excluded from the signed input because the request appends them
only after signing, and the `api_sig` field of every scrobble request equals
the signature of the request's remaining fields.  Signing is
permutation-independent whenever parameter names are pairwise distinct — as
they are in every request the client builds; with duplicate names the stable
sort preserves input order among equal names, so a permutation may change
the signature. -/
theorem C2_request_signing :
    (∀ params : List (String × String),
      List.Sorted nameLe (sortByName params) ∧ (sortByName params).Perm params) ∧
    (∀ (digest : String → String) (secret : String)
        (params params' : List (String × String)),
      params'.Perm params → (params.map Prod.fst).Nodup →
      sign_params digest params' secret = sign_params digest params secret) ∧
    (∀ (digest : String → String) (secret apiKey sessionKey : String)
        (track : ScrobbleTrack),
      signedParams (scrobble_request_params digest secret apiKey sessionKey track) =
        scrobble_base_params apiKey sessionKey track ∧
      List.lookup "api_sig"
          (scrobble_request_params digest secret apiKey sessionKey track) =
        some (sign_params digest
          (signedParams (scrobble_request_params digest secret apiKey sessionKey track))
          secret)) := by
  refine ⟨fun params => ⟨sortByName_sorted params, sortByName_perm params⟩, ?_, ?_⟩
  · intro digest secret params params' hperm hnodup
    unfold sign_params signBase
    rw [sortByName_eq_of_perm params params' hperm hnodup]
  · intro digest secret apiKey sessionKey track
    obtain ⟨ar, ti, alb, ts, dur⟩ := track
    have hfilter : signedParams
        (scrobble_request_params digest secret apiKey sessionKey ⟨ar, ti, alb, ts, dur⟩) =
        scrobble_base_params apiKey sessionKey ⟨ar, ti, alb, ts, dur⟩ := by
      cases alb <;> by_cases hdur : 0 < dur <;>
        simp [signedParams, scrobble_request_params, scrobble_base_params, hdur,
          List.filter_append]
    refine ⟨hfilter, ?_⟩
    rw [hfilter]
    cases alb <;> by_cases hdur : 0 < dur <;>
      simp only [scrobble_request_params, scrobble_base_params, hdur, if_true, if_false,
        ite_true, ite_false] <;>
      rfl

/-- Claim C2, witness: signing the spec's example `{b:2, a:1}` equals signing
`{a:1, b:2}` (distinct names, permuted input). -/
theorem C2_request_signing_witness :
    sign_params (fun input => input) [("b", "2"), ("a", "1")] "s" =
      sign_params (fun input => input) [("a", "1"), ("b", "2")] "s" :=
  C2_request_signing.2.1 (fun input => input) "s" [("a", "1"), ("b", "2")]
    [("b", "2"), ("a", "1")] (by decide) (by decide)

